import Mathlib

/-!
Versioned native-handle descriptors of `UnityXRNativePtrs.h`.

A shallow embedding of `ARPackages/com.unity.xr.arkit/Includes~/UnityXRNativePtrs.h`.

The header is a list of C declarations: one `#pragma once`, three
`typedef struct T { int version; void* p; } T;`, three `static const int`
version constants and three plain `typedef T_1 T;` aliases.  The embedding keeps
the declarations as data (`header`), elaborates them in source order into a
typedef environment (`typeEnv`) and lays the structs out with the usual C rule
(each member at the next offset that is a multiple of its alignment, the struct
padded to a multiple of its own alignment) over an explicit target ABI.
Member access is modelled on byte buffers.
-/

namespace UnityXRNativePtrs

/-! ## The C declarations of the header -/

/-- The two C types that occur in the header: `int` and `void*`. -/
inductive CType where
  | int
  | voidPtr
  deriving DecidableEq

/-- A struct member declaration, `type name;`. -/
structure Field where
  name : String
  type : CType
  deriving DecidableEq

/-- A top-level declaration of the header. -/
inductive Decl where
  /-- A preprocessor pragma, `#pragma directive` or `#pragma directive(arg)`. -/
  | pragma (directive : String) (arg : Option Nat)
  /-- A struct definition with its typedef, `typedef struct tag { fields } name;`. -/
  | structType (tag : String) (fields : List Field) (name : String)
  /-- An integer constant, `static const int name = value;`. -/
  | constInt (name : String) (value : Int)
  /-- A plain typedef, `typedef target name;`. -/
  | typeAlias (target : String) (name : String)
  deriving DecidableEq

/-- The constant `static const int kUnityXRNativeSessionVersion = 1;`. -/
def kUnityXRNativeSessionVersion : Int := 1

/-- The constant `static const int kUnityXRNativePlaneVersion = 1;`. -/
def kUnityXRNativePlaneVersion : Int := 1

/-- The constant `static const int kUnityXRNativeReferencePointVersion = 1;`. -/
def kUnityXRNativeReferencePointVersion : Int := 1

/-- The header, declaration by declaration, in source order. -/
def header : List Decl :=
  [ .pragma "once" none,
    .structType "UnityXRNativeSession_1"
      [⟨"version", .int⟩, ⟨"sessionPtr", .voidPtr⟩] "UnityXRNativeSession_1",
    .structType "UnityXRNativePlane_1"
      [⟨"version", .int⟩, ⟨"planePtr", .voidPtr⟩] "UnityXRNativePlane_1",
    .structType "UnityXRNativeReferencePoint_1"
      [⟨"version", .int⟩, ⟨"referencePointPtr", .voidPtr⟩] "UnityXRNativeReferencePoint_1",
    .constInt "kUnityXRNativeSessionVersion" kUnityXRNativeSessionVersion,
    .constInt "kUnityXRNativePlaneVersion" kUnityXRNativePlaneVersion,
    .constInt "kUnityXRNativeReferencePointVersion" kUnityXRNativeReferencePointVersion,
    .typeAlias "UnityXRNativeSession_1" "UnityXRNativeSession",
    .typeAlias "UnityXRNativePlane_1" "UnityXRNativePlane",
    .typeAlias "UnityXRNativeReferencePoint_1" "UnityXRNativeReferencePoint" ]

/-! ## Elaboration of the declarations -/

/-- A struct type as the compiler sees it: its tag, its members in declaration
order and the `#pragma pack` value in force where it was declared (`none` when
no packing directive precedes it). -/
structure StructType where
  tag : String
  fields : List Field
  pack : Option Nat
  deriving DecidableEq

/-- Elaboration state: the packing in force and the typedef names bound so far. -/
structure DeclState where
  pack : Option Nat
  types : List (String × StructType)

/-- Look a name up in an association list (first binding wins). -/
def assoc {α : Type} (name : String) : List (String × α) → Option α
  | [] => none
  | (n, v) :: rest => if n = name then some v else assoc name rest

/-- Elaborate one declaration.  `#pragma pack(n)` changes the packing in force,
`#pragma pack` without argument resets it, any other pragma (`once`) leaves the
state alone; a struct typedef binds its name to a new struct type; a plain
typedef binds the new name to whatever type the target name denotes. -/
def bindDecl (st : DeclState) : Decl → DeclState
  | .pragma directive arg =>
      if directive = "pack" then ⟨arg, st.types⟩ else st
  | .structType tag fields name =>
      ⟨st.pack, st.types ++ [(name, ⟨tag, fields, st.pack⟩)]⟩
  | .constInt _ _ => st
  | .typeAlias target name =>
      match assoc target st.types with
      | some t => ⟨st.pack, st.types ++ [(name, t)]⟩
      | none => st

/-- The typedef environment after the whole list of declarations. -/
def typeEnv (decls : List Decl) : List (String × StructType) :=
  (decls.foldl bindDecl ⟨none, []⟩).types

/-- The struct type a typedef name denotes. -/
def lookupType (decls : List Decl) (name : String) : Option StructType :=
  assoc name (typeEnv decls)

/-- The `static const int` declarations, as name and value pairs. -/
def constEnv : List Decl → List (String × Int)
  | [] => []
  | .constInt name value :: rest => (name, value) :: constEnv rest
  | _ :: rest => constEnv rest

/-- The value of a named constant. -/
def lookupConst (decls : List Decl) (name : String) : Option Int :=
  assoc name (constEnv decls)

/-- The packing directives (`#pragma pack ...`) of a list of declarations. -/
def packDirectives : List Decl → List (Option Nat)
  | [] => []
  | .pragma directive arg :: rest =>
      if directive = "pack" then arg :: packDirectives rest else packDirectives rest
  | _ :: rest => packDirectives rest

/-! ## Descriptor kinds -/

/-- The three AR concepts the header describes. -/
inductive Kind where
  | session
  | plane
  | referencePoint
  deriving DecidableEq

/-- The three kinds. -/
def Kind.all : List Kind := [.session, .plane, .referencePoint]

/-- The name of the versioned struct of a kind. -/
def Kind.structName : Kind → String
  | .session => "UnityXRNativeSession_1"
  | .plane => "UnityXRNativePlane_1"
  | .referencePoint => "UnityXRNativeReferencePoint_1"

/-- The unversioned typedef name of a kind. -/
def Kind.aliasName : Kind → String
  | .session => "UnityXRNativeSession"
  | .plane => "UnityXRNativePlane"
  | .referencePoint => "UnityXRNativeReferencePoint"

/-- The name of the version constant of a kind. -/
def Kind.constName : Kind → String
  | .session => "kUnityXRNativeSessionVersion"
  | .plane => "kUnityXRNativePlaneVersion"
  | .referencePoint => "kUnityXRNativeReferencePointVersion"

/-- The name of the handle member of a kind. -/
def Kind.handleName : Kind → String
  | .session => "sessionPtr"
  | .plane => "planePtr"
  | .referencePoint => "referencePointPtr"

/-- The version constant of a kind. -/
def kVersion : Kind → Int
  | .session => kUnityXRNativeSessionVersion
  | .plane => kUnityXRNativePlaneVersion
  | .referencePoint => kUnityXRNativeReferencePointVersion

/-- The versioned struct of a kind, as elaborated from the header. -/
def structOf (k : Kind) : StructType :=
  (lookupType header k.structName).getD ⟨"", [], none⟩

/-- The number after the last underscore of a name, when there is one:
`versionSuffix "UnityXRNativePlane_1" = some 1`. -/
def versionSuffix (name : String) : Option Nat :=
  let digits := (name.toList.reverse.takeWhile (fun c => c != '_')).reverse
  if digits.length < name.length ∧ digits ≠ [] ∧ digits.all Char.isDigit then
    some (digits.foldl (fun n c => 10 * n + (c.toNat - '0'.toNat)) 0)
  else none

/-! ## Target ABI and struct layout -/

/-- What the layout of the structs depends on: size and alignment of `int` and
of `void*` in bytes, and the byte order. -/
structure ABI where
  intSize : Nat
  intAlign : Nat
  ptrSize : Nat
  ptrAlign : Nat
  bigEndian : Bool
  deriving DecidableEq

/-- A well-formed C ABI: object sizes and alignments are positive and the size
of a type is a multiple of its alignment. -/
def ABI.Valid (abi : ABI) : Prop :=
  0 < abi.intSize ∧ 0 < abi.intAlign ∧ abi.intAlign ∣ abi.intSize ∧
  0 < abi.ptrSize ∧ 0 < abi.ptrAlign ∧ abi.ptrAlign ∣ abi.ptrSize

instance (abi : ABI) : Decidable abi.Valid := by
  unfold ABI.Valid
  infer_instance

/-- The 64-bit ABI of arm64 iOS: 4-byte `int`, 8-byte pointers, little endian. -/
def lp64 : ABI := ⟨4, 4, 8, 8, false⟩

/-- The 32-bit ABI of armv7 iOS: 4-byte `int`, 4-byte pointers, little endian. -/
def ilp32 : ABI := ⟨4, 4, 4, 4, false⟩

/-- The `sizeof` of a type. -/
def CType.size (abi : ABI) : CType → Nat
  | .int => abi.intSize
  | .voidPtr => abi.ptrSize

/-- The `_Alignof` of a type. -/
def CType.align (abi : ABI) : CType → Nat
  | .int => abi.intAlign
  | .voidPtr => abi.ptrAlign

/-- The width of a type in bits. -/
def CType.bits (abi : ABI) (t : CType) : Nat := 8 * t.size abi

/-- Whether a type is a signed integer type: `int` is, `void*` is not. -/
def CType.signed : CType → Bool
  | .int => true
  | .voidPtr => false

/-- Round `off` up to the next multiple of `a`. -/
def alignUp (off a : Nat) : Nat := (off + a - 1) / a * a

/-- The alignment a member gets: that of its type, capped by the packing in
force when there is one. -/
def memberAlign (abi : ABI) (pack : Option Nat) (t : CType) : Nat :=
  match pack with
  | none => t.align abi
  | some n => min (t.align abi) n

/-- Offset and type of the member called `name`, laying the members out one
after the other from offset `off`. -/
def memberFrom (abi : ABI) (pack : Option Nat) (name : String) : Nat → List Field → Option (Nat × CType)
  | _, [] => none
  | off, f :: fs =>
      let o := alignUp off (memberAlign abi pack f.type)
      if f.name = name then some (o, f.type)
      else memberFrom abi pack name (o + f.type.size abi) fs

/-- The offset just past the last member. -/
def endFrom (abi : ABI) (pack : Option Nat) : Nat → List Field → Nat
  | off, [] => off
  | off, f :: fs =>
      endFrom abi pack (alignUp off (memberAlign abi pack f.type) + f.type.size abi) fs

/-- Offset and type of a member of a struct. -/
def StructType.member (abi : ABI) (s : StructType) (name : String) : Option (Nat × CType) :=
  memberFrom abi s.pack name 0 s.fields

/-- The `offsetof` of a member of a struct. -/
def StructType.offsetOf (abi : ABI) (s : StructType) (name : String) : Option Nat :=
  (s.member abi name).map Prod.fst

/-- The alignment of a struct: the largest alignment of a member. -/
def StructType.align (abi : ABI) (s : StructType) : Nat :=
  s.fields.foldl (fun m f => max m (memberAlign abi s.pack f.type)) 1

/-- The `sizeof` of a struct: the end of the last member, padded to the
alignment of the struct. -/
def StructType.size (abi : ABI) (s : StructType) : Nat :=
  alignUp (endFrom abi s.pack 0 s.fields) (s.align abi)

/-! ## Objects in memory -/

/-- A byte of storage. -/
abbrev Byte := Fin 256

/-- The `n` low bytes of `v`, least significant first. -/
def toBytesLE : Nat → Nat → List Byte
  | 0, _ => []
  | n + 1, v => ⟨v % 256, Nat.mod_lt v (by decide)⟩ :: toBytesLE n (v / 256)

/-- The number a list of bytes spells, least significant first. -/
def fromBytesLE : List Byte → Nat
  | [] => 0
  | b :: bs => b.val + 256 * fromBytesLE bs

/-- The object representation of an unsigned value in `n` bytes. -/
def encodeNat (abi : ABI) (n v : Nat) : List Byte :=
  if abi.bigEndian then (toBytesLE n v).reverse else toBytesLE n v

/-- The unsigned value of an object representation. -/
def decodeNat (abi : ABI) (bs : List Byte) : Nat :=
  if abi.bigEndian then fromBytesLE bs.reverse else fromBytesLE bs

/-- Two's complement: the unsigned value that represents `i` in `bits` bits. -/
def wrapInt (bits : Nat) (i : Int) : Nat := (i % 2 ^ bits).toNat

/-- Two's complement: the signed value an unsigned `bits`-bit value represents. -/
def signedOf (bits : Nat) (u : Nat) : Int :=
  if 2 * u < 2 ^ bits then (u : Int) else (u : Int) - 2 ^ bits

/-- The `n` bytes of a buffer at offset `off`, when they lie within it. -/
def load (buf : List Byte) (off n : Nat) : Option (List Byte) :=
  if off + n ≤ buf.length then some ((buf.drop off).take n) else none

/-- Overwrite the bytes of a buffer at offset `off`, when they lie within it. -/
def store (buf : List Byte) (off : Nat) (bs : List Byte) : Option (List Byte) :=
  if off + bs.length ≤ buf.length then
    some (buf.take off ++ bs ++ buf.drop (off + bs.length))
  else none

/-- A value of one of the two C types. -/
inductive CVal where
  | int (v : Int)
  | ptr (addr : Nat)
  deriving DecidableEq

/-- The object representation of a value stored into an object of type `t`;
`none` when the value is not of that type. -/
def encodeVal (abi : ABI) : CType → CVal → Option (List Byte)
  | .int, .int v => some (encodeNat abi abi.intSize (wrapInt (8 * abi.intSize) v))
  | .voidPtr, .ptr a => some (encodeNat abi abi.ptrSize a)
  | _, _ => none

/-- The value of an object of type `t` with the given representation. -/
def decodeVal (abi : ABI) (t : CType) (bs : List Byte) : CVal :=
  match t with
  | .int => .int (signedOf (8 * abi.intSize) (decodeNat abi bs))
  | .voidPtr => .ptr (decodeNat abi bs)

/-- Member read `p->name` on a struct stored at the start of `buf`. -/
def readMember (abi : ABI) (s : StructType) (name : String) (buf : List Byte) : Option CVal :=
  match s.member abi name with
  | none => none
  | some (off, t) =>
      match load buf off (t.size abi) with
      | none => none
      | some bs => some (decodeVal abi t bs)

/-- Member write `p->name = v` on a struct stored at the start of `buf`. -/
def writeMember (abi : ABI) (s : StructType) (name : String) (v : CVal) (buf : List Byte) :
    Option (List Byte) :=
  match s.member abi name with
  | none => none
  | some (off, t) =>
      match encodeVal abi t v with
      | none => none
      | some bs => store buf off bs

/-- Read `version` from a descriptor of kind `k`. -/
def readVersion (abi : ABI) (k : Kind) (buf : List Byte) : Option Int :=
  match readMember abi (structOf k) "version" buf with
  | some (.int v) => some v
  | _ => none

/-- Read the handle member (`sessionPtr`, `planePtr`, `referencePointPtr`) from
a descriptor of kind `k`. -/
def readHandle (abi : ABI) (k : Kind) (buf : List Byte) : Option Nat :=
  match readMember abi (structOf k) k.handleName buf with
  | some (.ptr a) => some a
  | _ => none

/-- Fill the two members of a descriptor of kind `k` in the storage `mem`:
`d.version = v; d.handle = h;`. -/
def initDescriptor (abi : ABI) (k : Kind) (v : Int) (h : Nat) (mem : List Byte) :
    Option (List Byte) :=
  match writeMember abi (structOf k) "version" (.int v) mem with
  | none => none
  | some m => writeMember abi (structOf k) k.handleName (.ptr h) m

/-- Modelled from the spec: the conforming producer (the native `GetNativePtr`
accessor, which is not part of the header).  Given the handle it is to
describe it writes the kind's version constant into `version` and the handle
into the handle member of a freshly created descriptor, whose storage `mem` has
arbitrary contents before. -/
def produce (abi : ABI) (k : Kind) (h : Nat) (mem : List Byte) : Option (List Byte) :=
  initDescriptor abi k (kVersion k) h mem

/-- Modelled from the spec: the consumer of a descriptor (section 4.1; not part
of the header).  It reads the leading integer as `version` (the `version`
member of the struct, the spec's 32-bit integer on a target with a 4-byte
`int`), compares it with the constant of the descriptor kind, and only if they
are equal reads the handle member; for any other version, or when no version
can be read, it refuses and yields no handle. -/
def consume (abi : ABI) (k : Kind) (buf : List Byte) : Option Nat :=
  match readVersion abi k buf with
  | none => none
  | some v => if v = kVersion k then readHandle abi k buf else none

/-! ## Layout lemmas -/

theorem alignUp_zero (a : Nat) : alignUp 0 a = 0 := by
  unfold alignUp
  cases a with
  | zero => simp
  | succ a =>
    have h : (0 + (a + 1) - 1) / (a + 1) = 0 := Nat.div_eq_of_lt (by omega)
    rw [h]; simp

theorem le_alignUp (off a : Nat) (h : 0 < a) : off ≤ alignUp off a := by
  unfold alignUp
  have h1 := Nat.div_add_mod (off + a - 1) a
  have h2 := Nat.mod_lt (off + a - 1) h
  have h3 : (off + a - 1) / a * a = a * ((off + a - 1) / a) := Nat.mul_comm _ _
  omega

theorem structOf_eq (k : Kind) :
    structOf k = ⟨k.structName, [⟨"version", .int⟩, ⟨k.handleName, .voidPtr⟩], none⟩ := by
  cases k <;> decide

theorem member_version (abi : ABI) (k : Kind) :
    (structOf k).member abi "version" = some (0, .int) := by
  rw [structOf_eq]
  simp [StructType.member, memberFrom, alignUp_zero]

theorem member_handle (abi : ABI) (k : Kind) :
    (structOf k).member abi k.handleName = some (alignUp abi.intSize abi.ptrAlign, .voidPtr) := by
  rw [structOf_eq]
  cases k <;>
    simp [StructType.member, memberFrom, alignUp_zero, Kind.handleName, memberAlign,
      CType.size, CType.align]

theorem size_structOf (abi : ABI) (k : Kind) :
    (structOf k).size abi =
      alignUp (alignUp abi.intSize abi.ptrAlign + abi.ptrSize)
        (max (max 1 abi.intAlign) abi.ptrAlign) := by
  rw [structOf_eq]
  simp [StructType.size, StructType.align, endFrom, alignUp_zero, memberAlign,
    CType.size, CType.align]

/-! ## Object representation lemmas -/

theorem length_toBytesLE (n v : Nat) : (toBytesLE n v).length = n := by
  induction n generalizing v with
  | zero => rfl
  | succ n ih => simp [toBytesLE, ih]

theorem fromBytesLE_toBytesLE (n v : Nat) : fromBytesLE (toBytesLE n v) = v % 256 ^ n := by
  induction n generalizing v with
  | zero => simp [toBytesLE, fromBytesLE, Nat.mod_one]
  | succ n ih =>
    simp only [toBytesLE, fromBytesLE, ih]
    rw [pow_succ', Nat.mod_mul]

theorem length_encodeNat (abi : ABI) (n v : Nat) : (encodeNat abi n v).length = n := by
  unfold encodeNat
  split <;> simp [length_toBytesLE]

theorem decodeNat_encodeNat (abi : ABI) (n v : Nat) :
    decodeNat abi (encodeNat abi n v) = v % 256 ^ n := by
  unfold decodeNat encodeNat
  split <;> simp [fromBytesLE_toBytesLE]

theorem wrapInt_lt (bits : Nat) (i : Int) : wrapInt bits i < 2 ^ bits := by
  unfold wrapInt
  have hpos : (0 : Int) < 2 ^ bits := by positivity
  have h1 := Int.emod_lt_of_pos i hpos
  have h0 := Int.emod_nonneg i (ne_of_gt hpos)
  have : ((i % 2 ^ bits).toNat : Int) < ((2 ^ bits : Nat) : Int) := by
    rw [Int.toNat_of_nonneg h0]; push_cast; exact h1
  exact_mod_cast this

theorem signedOf_wrapInt (bits : Nat) (i : Int)
    (hlo : -(2 ^ bits : Int) ≤ 2 * i) (hhi : 2 * i < 2 ^ bits) :
    signedOf bits (wrapInt bits i) = i := by
  unfold signedOf wrapInt
  have hpos : (0 : Int) < 2 ^ bits := by positivity
  have h0 := Int.emod_nonneg i (ne_of_gt hpos)
  have hcast : (((i % 2 ^ bits).toNat : Nat) : Int) = i % 2 ^ bits := Int.toNat_of_nonneg h0
  by_cases hi : 0 ≤ i
  · have hm : i % 2 ^ bits = i := Int.emod_eq_of_lt hi (by omega)
    have hlt : 2 * (i % 2 ^ bits).toNat < 2 ^ bits := by
      have : ((2 * (i % 2 ^ bits).toNat : Nat) : Int) < ((2 ^ bits : Nat) : Int) := by
        push_cast; rw [hcast, hm]; exact hhi
      exact_mod_cast this
    rw [if_pos hlt, hcast, hm]
  · have hm : i % 2 ^ bits = i + 2 ^ bits := by
      have : (i + 2 ^ bits) % 2 ^ bits = i + 2 ^ bits :=
        Int.emod_eq_of_lt (by omega) (by omega)
      rw [← this, Int.add_emod_self]
    have hlt : ¬ 2 * (i % 2 ^ bits).toNat < 2 ^ bits := by
      intro hc
      have : ((2 * (i % 2 ^ bits).toNat : Nat) : Int) < ((2 ^ bits : Nat) : Int) := by
        exact_mod_cast hc
      push_cast at this
      rw [hcast, hm] at this
      omega
    rw [if_neg hlt, hcast, hm]
    omega

/-! ## Memory lemmas -/

theorem store_length {buf buf2 : List Byte} {off : Nat} {bs : List Byte}
    (h : store buf off bs = some buf2) : buf2.length = buf.length := by
  unfold store at h
  split at h
  · cases h
    simp
    omega
  · cases h

theorem store_isSome (buf : List Byte) (off : Nat) (bs : List Byte)
    (h : off + bs.length ≤ buf.length) : ∃ buf2, store buf off bs = some buf2 := by
  unfold store
  rw [if_pos h]
  exact ⟨_, rfl⟩

theorem load_store_same {buf buf2 : List Byte} {off : Nat} {bs : List Byte}
    (h : store buf off bs = some buf2) : load buf2 off bs.length = some bs := by
  have hl := store_length h
  unfold store at h
  split at h
  next hle =>
    cases h
    unfold load
    rw [if_pos (by rw [hl]; exact hle)]
    congr 1
    have h1 : (List.take off buf).length = off := by
      rw [List.length_take]; omega
    rw [List.append_assoc, List.drop_append_of_le_length (by omega)]
    rw [List.drop_of_length_le (by omega), List.nil_append]
    rw [List.take_append_of_le_length (by omega), List.take_of_length_le (by omega)]
  next => cases h

theorem getElem?_store {buf buf2 : List Byte} {off : Nat} {bs : List Byte}
    (h : store buf off bs = some buf2) (j : Nat) (hj : j < off ∨ off + bs.length ≤ j) :
    buf2[j]? = buf[j]? := by
  unfold store at h
  split at h
  next hle =>
    cases h
    have h1 : (List.take off buf).length = off := by
      rw [List.length_take]; omega
    rcases hj with hj | hj
    · rw [List.append_assoc, List.getElem?_append_left (by omega)]
      rw [List.getElem?_take_of_lt hj]
    · rw [List.getElem?_append_right (by simp; omega)]
      rw [List.getElem?_drop]
      congr 1
      simp
      omega
  next => cases h

theorem load_store_other {buf buf2 : List Byte} {off : Nat} {bs : List Byte}
    (h : store buf off bs = some buf2) (off2 n : Nat)
    (hd : off2 + n ≤ off ∨ off + bs.length ≤ off2) :
    load buf2 off2 n = load buf off2 n := by
  have hl := store_length h
  unfold load
  rw [hl]
  split
  · congr 1
    apply List.ext_getElem?
    intro i
    rw [List.getElem?_take, List.getElem?_take]
    split
    · rw [List.getElem?_drop, List.getElem?_drop]
      exact getElem?_store h _ (by omega)
    · rfl
  · rfl

/-! ## Member access on the three descriptors -/

theorem readVersion_eq (abi : ABI) (k : Kind) (buf : List Byte) :
    readVersion abi k buf =
      (load buf 0 abi.intSize).map (fun bs => signedOf (8 * abi.intSize) (decodeNat abi bs)) := by
  simp only [readVersion, readMember, member_version, CType.size]
  cases load buf 0 abi.intSize <;> simp [decodeVal]

theorem readHandle_eq (abi : ABI) (k : Kind) (buf : List Byte) :
    readHandle abi k buf =
      (load buf (alignUp abi.intSize abi.ptrAlign) abi.ptrSize).map (decodeNat abi) := by
  simp only [readHandle, readMember, member_handle, CType.size]
  cases load buf (alignUp abi.intSize abi.ptrAlign) abi.ptrSize <;> simp [decodeVal]

theorem initDescriptor_eq (abi : ABI) (k : Kind) (v : Int) (h : Nat) (mem : List Byte) :
    initDescriptor abi k v h mem =
      (store mem 0 (encodeNat abi abi.intSize (wrapInt (8 * abi.intSize) v))).bind
        (fun m => store m (alignUp abi.intSize abi.ptrAlign) (encodeNat abi abi.ptrSize h)) := by
  simp only [initDescriptor, writeMember, member_version, member_handle, encodeVal]
  cases store mem 0 (encodeNat abi abi.intSize (wrapInt (8 * abi.intSize) v)) <;> simp

theorem handle_end_le_size (abi : ABI) (k : Kind) :
    alignUp abi.intSize abi.ptrAlign + abi.ptrSize ≤ (structOf k).size abi := by
  rw [size_structOf]
  apply le_alignUp
  omega

theorem initDescriptor_isSome (abi : ABI) (k : Kind) (v : Int) (h : Nat) (mem : List Byte)
    (habi : abi.Valid) (hmem : (structOf k).size abi ≤ mem.length) :
    ∃ d, initDescriptor abi k v h mem = some d := by
  obtain ⟨_, _, _, _, hpa, _⟩ := habi
  have hend := handle_end_le_size abi k
  have hoff := le_alignUp abi.intSize abi.ptrAlign hpa
  rw [initDescriptor_eq]
  obtain ⟨m, hm⟩ := store_isSome mem 0 (encodeNat abi abi.intSize (wrapInt (8 * abi.intSize) v))
    (by rw [length_encodeNat]; omega)
  obtain ⟨d, hd⟩ := store_isSome m (alignUp abi.intSize abi.ptrAlign) (encodeNat abi abi.ptrSize h)
    (by rw [length_encodeNat, store_length hm]; omega)
  exact ⟨d, by rw [hm]; exact hd⟩

theorem read_initDescriptor (abi : ABI) (k : Kind) (v : Int) (h : Nat) (mem d : List Byte)
    (hpa : 0 < abi.ptrAlign) (hd : initDescriptor abi k v h mem = some d) :
    readVersion abi k d = some (signedOf (8 * abi.intSize) (wrapInt (8 * abi.intSize) v)) ∧
    readHandle abi k d = some (h % 256 ^ abi.ptrSize) := by
  have hoff := le_alignUp abi.intSize abi.ptrAlign hpa
  rw [initDescriptor_eq] at hd
  cases hm : store mem 0 (encodeNat abi abi.intSize (wrapInt (8 * abi.intSize) v)) with
  | none => rw [hm] at hd; cases hd
  | some m =>
    rw [hm] at hd
    simp only [Option.some_bind] at hd
    constructor
    · rw [readVersion_eq, load_store_other hd 0 abi.intSize (Or.inl (by omega))]
      have := load_store_same hm
      rw [length_encodeNat] at this
      rw [this]
      simp only [Option.map_some', decodeNat_encodeNat]
      have hlt := wrapInt_lt (8 * abi.intSize) v
      have hp : (256 : Nat) ^ abi.intSize = 2 ^ (8 * abi.intSize) := by
        rw [pow_mul]; norm_num
      rw [hp, Nat.mod_eq_of_lt hlt]
    · rw [readHandle_eq]
      have := load_store_same hd
      rw [length_encodeNat] at this
      rw [this]
      simp only [Option.map_some', decodeNat_encodeNat]

theorem signedOf_wrapInt_one (n : Nat) (hn : 0 < n) : signedOf (8 * n) (wrapInt (8 * n) 1) = 1 := by
  have h8 : (2 : Int) ^ 8 ≤ 2 ^ (8 * n) := pow_le_pow_right₀ (by norm_num) (by omega)
  have hpos : (0 : Int) < 2 ^ (8 * n) := by positivity
  apply signedOf_wrapInt
  · omega
  · have : (2 : Int) ^ 8 = 256 := by norm_num
    omega

theorem kVersion_eq_one (k : Kind) : kVersion k = 1 := by
  cases k <;> rfl

theorem fromBytesLE_lt (bs : List Byte) : fromBytesLE bs < 256 ^ bs.length := by
  induction bs with
  | nil => simp [fromBytesLE]
  | cons b bs ih =>
    have hb := b.isLt
    simp only [fromBytesLE, List.length_cons, pow_succ]
    omega

theorem decodeNat_lt (abi : ABI) (bs : List Byte) : decodeNat abi bs < 256 ^ bs.length := by
  unfold decodeNat
  split
  · have := fromBytesLE_lt bs.reverse
    rwa [List.length_reverse] at this
  · exact fromBytesLE_lt bs

theorem load_length {buf bs : List Byte} {off n : Nat} (h : load buf off n = some bs) :
    bs.length = n := by
  unfold load at h
  split at h
  · cases h
    rw [List.length_take, List.length_drop]
    omega
  · cases h

/-- On a target with a 4-byte `int` every `version` read is a 32-bit
two's-complement value. -/
theorem readVersion_range (abi : ABI) (k : Kind) (hint : abi.intSize = 4)
    (buf : List Byte) (v : Int) (hv : readVersion abi k buf = some v) :
    -2 ^ 31 ≤ v ∧ v < 2 ^ 31 := by
  rw [readVersion_eq, hint] at hv
  cases hl : load buf 0 4 with
  | none => rw [hl] at hv; cases hv
  | some bs =>
    rw [hl] at hv
    simp only [Option.map_some', Option.some.injEq] at hv
    have hlen := load_length hl
    have hlt := decodeNat_lt abi bs
    rw [hlen] at hlt
    have hlt2 : (decodeNat abi bs : Int) < 4294967296 := by
      have : (256 : Nat) ^ 4 = 4294967296 := by norm_num
      omega
    subst hv
    unfold signedOf
    have h32 : (2 : Int) ^ (8 * 4) = 4294967296 := by norm_num
    have h32n : (2 : Nat) ^ (8 * 4) = 4294967296 := by norm_num
    have h31 : (2 : Int) ^ 31 = 2147483648 := by norm_num
    rw [h32, h32n, h31]
    split <;> omega

/-- On a target with a 4-byte `int` every 32-bit signed value stored into
`version` reads back unchanged. -/
theorem write_read_version (abi : ABI) (k : Kind) (hint : abi.intSize = 4)
    (v : Int) (mem : List Byte) (hlo : -2 ^ 31 ≤ v) (hhi : v < 2 ^ 31)
    (hmem : 4 ≤ mem.length) :
    ∃ d, writeMember abi (structOf k) "version" (.int v) mem = some d ∧
      readVersion abi k d = some v := by
  simp only [writeMember, member_version, encodeVal]
  obtain ⟨d, hd⟩ := store_isSome mem 0 (encodeNat abi abi.intSize (wrapInt (8 * abi.intSize) v))
    (by rw [length_encodeNat]; omega)
  refine ⟨d, hd, ?_⟩
  rw [readVersion_eq]
  have := load_store_same hd
  rw [length_encodeNat] at this
  rw [this]
  simp only [Option.map_some', decodeNat_encodeNat]
  have hlt := wrapInt_lt (8 * abi.intSize) v
  have hp : (256 : Nat) ^ abi.intSize = 2 ^ (8 * abi.intSize) := by
    rw [pow_mul]; norm_num
  rw [hp, Nat.mod_eq_of_lt hlt, hint]
  have h32 : (2 : Int) ^ (8 * 4) = 4294967296 := by norm_num
  have h31 : (2 : Int) ^ 31 = 2147483648 := by norm_num
  rw [signedOf_wrapInt (8 * 4) v (by rw [h32]; omega) (by rw [h32]; omega)]

/-! ## The claims -/

/-- C1: each of the three declared version constants
(`kUnityXRNativeSessionVersion`, `kUnityXRNativePlaneVersion`,
`kUnityXRNativeReferencePointVersion`) equals 1; the header declares exactly
three integer constants, namely the version constants of the three kinds in
that order, so every descriptor kind has exactly one constant, and its declared
value is 1. -/
theorem C1_version_constants :
    kUnityXRNativeSessionVersion = 1 ∧ kUnityXRNativePlaneVersion = 1 ∧
    kUnityXRNativeReferencePointVersion = 1 ∧
    (constEnv header).length = 3 ∧
    (constEnv header).map Prod.fst = Kind.all.map Kind.constName ∧
    ∀ k : Kind,
      ((constEnv header).filter (fun c => decide (c.1 = k.constName))).length = 1 ∧
      lookupConst header k.constName = some (kVersion k) ∧ kVersion k = 1 := by
  refine ⟨rfl, rfl, rfl, by decide, by decide, ?_⟩
  intro k
  cases k <;> decide

/-- C2: for each of the three descriptor structs, `version` is the first
declared member and its byte offset within the struct is 0, for every target
ABI (every choice of `int` and pointer size and alignment, and byte order). -/
theorem C2_version_offset_zero (abi : ABI) (k : Kind) :
    (structOf k).fields.head? = some ⟨"version", .int⟩ ∧
    (structOf k).offsetOf abi "version" = some 0 := by
  constructor
  · rw [structOf_eq]; rfl
  · simp [StructType.offsetOf, member_version]

/-- C3: each of the three descriptor structs has exactly two members, in this
order: first `version`, a 32-bit signed integer, then one untyped pointer-sized
native handle (`sessionPtr`, `planePtr`, `referencePointPtr` respectively); no
struct has any other member.  The header declares `version` as `int`, so this
is on the targets of the header, whose `int` is 4 bytes: there the member is 4
bytes and 32 bits wide, every value read from it lies in the 32-bit signed
range, and every value of that range, negative ones included, written to it
reads back unchanged. -/
theorem C3_two_fields (abi : ABI) (k : Kind) (hint : abi.intSize = 4) :
    (structOf k).fields = [⟨"version", .int⟩, ⟨k.handleName, .voidPtr⟩] ∧
    (structOf k).fields.length = 2 ∧
    (structOf k).fields.map (fun f => (f.name, f.type.signed, f.type.bits abi)) =
      [("version", true, 32), (k.handleName, false, 8 * abi.ptrSize)] ∧
    (structOf k).fields.map (fun f => f.type.size abi) = [4, abi.ptrSize] ∧
    (∀ (buf : List Byte) (v : Int), readVersion abi k buf = some v →
      -2 ^ 31 ≤ v ∧ v < 2 ^ 31) ∧
    (∀ (v : Int) (mem : List Byte), -2 ^ 31 ≤ v → v < 2 ^ 31 → 4 ≤ mem.length →
      ∃ d, writeMember abi (structOf k) "version" (.int v) mem = some d ∧
        readVersion abi k d = some v) := by
  refine ⟨by rw [structOf_eq], by rw [structOf_eq]; rfl, ?_, ?_, ?_, ?_⟩
  · rw [structOf_eq]
    simp [CType.signed, CType.bits, CType.size, hint]
  · rw [structOf_eq]
    simp [CType.size, hint]
  · intro buf v hv
    exact readVersion_range abi k hint buf v hv
  · intro v mem hlo hhi hmem
    exact write_read_version abi k hint v mem hlo hhi hmem

/-- C4: the three descriptor kinds have the same shape: for every target ABI
the structs of any two kinds have equal size and alignment, equal member types
and equal member offsets, so for every byte buffer the version and the handle
decoded from it are the same whichever of the three layouts is used. -/
theorem C4_same_shape (abi : ABI) (k1 k2 : Kind) :
    (structOf k1).size abi = (structOf k2).size abi ∧
    (structOf k1).align abi = (structOf k2).align abi ∧
    (structOf k1).fields.map Field.type = (structOf k2).fields.map Field.type ∧
    (structOf k1).offsetOf abi "version" = (structOf k2).offsetOf abi "version" ∧
    (structOf k1).offsetOf abi k1.handleName = (structOf k2).offsetOf abi k2.handleName ∧
    ∀ buf : List Byte,
      readVersion abi k1 buf = readVersion abi k2 buf ∧
      readHandle abi k1 buf = readHandle abi k2 buf := by
  refine ⟨?_, ?_, ?_, ?_, ?_, ?_⟩
  · rw [size_structOf, size_structOf]
  · rw [structOf_eq, structOf_eq]; rfl
  · rw [structOf_eq, structOf_eq]; rfl
  · simp only [StructType.offsetOf, member_version]
  · simp only [StructType.offsetOf, member_handle]
  · intro buf
    exact ⟨by rw [readVersion_eq, readVersion_eq], by rw [readHandle_eq, readHandle_eq]⟩

/-- C5: identity round trip at the boundary.  On every well-formed ABI, for
every descriptor kind and every handle value `h` (a pointer value of the
target), a producer that fills storage large enough for the struct with the
kind's version constant and `h` succeeds, and reading the result back gives
handle `h` and version equal to the kind's constant, which is 1.  Reading one
member is unaffected by the value of the other: the version read back is the
constant whatever handle was written, and the handle read back is `h` whatever
version was written. -/
theorem C5_round_trip (abi : ABI) (k : Kind) (h : Nat) (mem : List Byte)
    (habi : abi.Valid) (hh : h < 2 ^ (8 * abi.ptrSize))
    (hmem : (structOf k).size abi ≤ mem.length) :
    ∃ d, produce abi k h mem = some d ∧
      readHandle abi k d = some h ∧
      readVersion abi k d = some (kVersion k) ∧ kVersion k = 1 ∧
      (∀ h2 d2, produce abi k h2 mem = some d2 →
        readVersion abi k d2 = some (kVersion k)) ∧
      (∀ v d2, initDescriptor abi k v h mem = some d2 →
        readHandle abi k d2 = some h) := by
  obtain ⟨d, hd⟩ := initDescriptor_isSome abi k (kVersion k) h mem habi hmem
  obtain ⟨his, _, _, _, hpa, _⟩ := habi
  have hmod : h % 256 ^ abi.ptrSize = h := by
    apply Nat.mod_eq_of_lt
    have : (256 : Nat) ^ abi.ptrSize = 2 ^ (8 * abi.ptrSize) := by
      rw [pow_mul]; norm_num
    omega
  have hone : signedOf (8 * abi.intSize) (wrapInt (8 * abi.intSize) (kVersion k)) = kVersion k := by
    rw [kVersion_eq_one]; exact signedOf_wrapInt_one abi.intSize his
  refine ⟨d, hd, ?_, ?_, kVersion_eq_one k, ?_, ?_⟩
  · rw [(read_initDescriptor abi k _ h mem d hpa hd).2, hmod]
  · rw [(read_initDescriptor abi k _ h mem d hpa hd).1, hone]
  · intro h2 d2 hd2
    rw [(read_initDescriptor abi k _ h2 mem d2 hpa hd2).1, hone]
  · intro v d2 hd2
    rw [(read_initDescriptor abi k v h mem d2 hpa hd2).2, hmod]

/-- C6: version-guarded read.  For every descriptor kind and every descriptor
(a buffer that holds the whole struct), the consumer yields a handle if and
only if the version read from the descriptor equals the kind's version
constant, and then the handle is the one stored in the handle member; for
every descriptor whose version differs from the constant the consumer yields
no handle. -/
theorem C6_version_guard (abi : ABI) (k : Kind) (buf : List Byte)
    (hbuf : (structOf k).size abi ≤ buf.length) :
    ((consume abi k buf).isSome ↔ readVersion abi k buf = some (kVersion k)) ∧
    (readVersion abi k buf = some (kVersion k) →
      consume abi k buf = readHandle abi k buf ∧ (readHandle abi k buf).isSome) ∧
    (readVersion abi k buf ≠ some (kVersion k) → consume abi k buf = none) := by
  have hend := handle_end_le_size abi k
  have hsome : (readHandle abi k buf).isSome := by
    rw [readHandle_eq]
    unfold load
    rw [if_pos (by omega)]
    rfl
  have hyes : readVersion abi k buf = some (kVersion k) →
      consume abi k buf = readHandle abi k buf := by
    intro hv
    simp [consume, hv]
  have hno : readVersion abi k buf ≠ some (kVersion k) → consume abi k buf = none := by
    intro hv
    unfold consume
    cases hr : readVersion abi k buf with
    | none => rfl
    | some v =>
      have hne : v ≠ kVersion k := by
        intro heq
        apply hv
        rw [hr, heq]
      simp [hne]
  refine ⟨⟨?_, ?_⟩, fun hv => ⟨hyes hv, hsome⟩, hno⟩
  · intro hc
    by_contra hv
    rw [hno hv] at hc
    cases hc
  · intro hv
    rw [hyes hv]
    exact hsome

/-- C7: the byte offset of the handle member is not fixed by the header but
determined by the target ABI: the header has no packing directive and the
structs are laid out unpacked, so on every ABI the handle member is at the
`int` size rounded up to the pointer alignment.  With a 4-byte `int` and a
pointer whose size and alignment are both `p` (`p = 4` or `p = 8`) the handle
member of each of the three structs is at offset `p`, the smallest multiple of
`p` that is at least 4, after `p - 4` padding bytes, and the struct size is
`2 * p`: offset 8 with 4 padding bytes on the 64-bit ABI, offset 4 with no
padding on the 32-bit ABI. -/
theorem C7_handle_offset (abi : ABI) (p : Nat) (k : Kind) (habi : abi.Valid)
    (hint : abi.intSize = 4) (hsz : abi.ptrSize = p) (hal : abi.ptrAlign = p)
    (hp : p = 4 ∨ p = 8) :
    packDirectives header = [] ∧ (structOf k).pack = none ∧
    (∀ abi2 : ABI,
      (structOf k).offsetOf abi2 k.handleName = some (alignUp abi2.intSize abi2.ptrAlign)) ∧
    (structOf k).offsetOf abi k.handleName = some p ∧
    (p ∣ p ∧ 4 ≤ p ∧ ∀ m, p ∣ m → 4 ≤ m → p ≤ m) ∧
    (structOf k).size abi = 2 * p ∧
    p - abi.intSize = (if p = 8 then 4 else 0) ∧
    (structOf k).offsetOf lp64 k.handleName = some 8 ∧
    (structOf k).size lp64 = 16 ∧
    (structOf k).offsetOf ilp32 k.handleName = some 4 ∧
    (structOf k).size ilp32 = 8 := by
  obtain ⟨_, hia, hid, _, _, _⟩ := habi
  rw [hint] at hid
  have hle := Nat.le_of_dvd (by norm_num) hid
  have hoff : ∀ abi2 : ABI,
      (structOf k).offsetOf abi2 k.handleName = some (alignUp abi2.intSize abi2.ptrAlign) := by
    intro abi2
    simp only [StructType.offsetOf, member_handle, Option.map_some']
  refine ⟨by decide, by rw [structOf_eq], hoff, ?_, ?_, ?_, ?_, ?_, ?_, ?_, ?_⟩
  · rw [hoff, hint, hal]
    rcases hp with rfl | rfl <;> rfl
  · refine ⟨dvd_refl p, by omega, ?_⟩
    intro m hm h4
    have hm0 : 0 < m := by omega
    exact Nat.le_of_dvd hm0 hm
  · rw [size_structOf, hint, hal, hsz]
    have hcases : abi.intAlign = 1 ∨ abi.intAlign = 2 ∨ abi.intAlign = 4 := by
      have h3 : abi.intAlign ≠ 3 := by
        intro h; rw [h] at hid; revert hid; decide
      omega
    rcases hp with rfl | rfl <;> rcases hcases with h | h | h <;> rw [h] <;> decide
  · rw [hint]
    rcases hp with rfl | rfl <;> rfl
  · rw [hoff]; rfl
  · rw [size_structOf]; decide
  · rw [hoff]; rfl
  · rw [size_structOf]; decide

/-- C8: the unversioned names `UnityXRNativeSession`, `UnityXRNativePlane` and
`UnityXRNativeReferencePoint` are plain typedefs of the version-1 structs: the
header declares each as a typedef of its `_1` struct, each denotes the very
struct type its `_1` name denotes (same tag, same members in the same order,
same packing, hence the same layout), and the number in the suffix of the
struct name, 1, is the value of the matching version constant. -/
theorem C8_aliases (k : Kind) :
    Decl.typeAlias k.structName k.aliasName ∈ header ∧
    lookupType header k.aliasName = lookupType header k.structName ∧
    lookupType header k.structName = some (structOf k) ∧
    (structOf k).tag = k.structName ∧
    (structOf k).fields = [⟨"version", .int⟩, ⟨k.handleName, .voidPtr⟩] ∧
    versionSuffix k.structName = some 1 ∧
    versionSuffix k.aliasName = none ∧
    (versionSuffix k.structName).map Int.ofNat = lookupConst header k.constName ∧
    lookupConst header k.constName = some (kVersion k) := by
  cases k <;> decide

/-! ## The theorems at concrete descriptors -/

/-- C5 on arm64: a plane descriptor made for the handle `0x1122334455667788` in
16 bytes of `0xff` reads back that handle and version 1. -/
theorem C5_round_trip_witness :
    lp64.Valid ∧ 0x1122334455667788 < 2 ^ (8 * lp64.ptrSize) ∧
    (structOf .plane).size lp64 ≤ (List.replicate 16 (255 : Byte)).length ∧
    produce lp64 .plane 0x1122334455667788 (List.replicate 16 255) =
      some [1, 0, 0, 0, 255, 255, 255, 255, 0x88, 0x77, 0x66, 0x55, 0x44, 0x33, 0x22, 0x11] ∧
    ∃ d, produce lp64 .plane 0x1122334455667788 (List.replicate 16 255) = some d ∧
      readHandle lp64 .plane d = some 0x1122334455667788 ∧
      readVersion lp64 .plane d = some (kVersion .plane) ∧ kVersion .plane = 1 ∧
      (∀ h2 d2, produce lp64 .plane h2 (List.replicate 16 255) = some d2 →
        readVersion lp64 .plane d2 = some (kVersion .plane)) ∧
      (∀ v d2, initDescriptor lp64 .plane v 0x1122334455667788 (List.replicate 16 255) = some d2 →
        readHandle lp64 .plane d2 = some 0x1122334455667788) :=
  ⟨by decide, by decide, by decide, by decide,
    C5_round_trip lp64 .plane 0x1122334455667788 (List.replicate 16 255)
      (by decide) (by decide) (by decide)⟩

/-- C6 on arm64: the consumer reads the handle of a session descriptor whose
version is 1. -/
theorem C6_version_guard_witness :
    (structOf .session).size lp64 ≤
      ([1, 0, 0, 0, 0, 0, 0, 0, 0x88, 0x77, 0x66, 0x55, 0x44, 0x33, 0x22, 0x11] :
        List Byte).length ∧
    consume lp64 .session [1, 0, 0, 0, 0, 0, 0, 0, 0x88, 0x77, 0x66, 0x55, 0x44, 0x33, 0x22, 0x11] =
      some 0x1122334455667788 ∧
    consume lp64 .session [2, 0, 0, 0, 0, 0, 0, 0, 0x88, 0x77, 0x66, 0x55, 0x44, 0x33, 0x22, 0x11] =
      none ∧
    (((consume lp64 .session
        [1, 0, 0, 0, 0, 0, 0, 0, 0x88, 0x77, 0x66, 0x55, 0x44, 0x33, 0x22, 0x11]).isSome ↔
      readVersion lp64 .session
        [1, 0, 0, 0, 0, 0, 0, 0, 0x88, 0x77, 0x66, 0x55, 0x44, 0x33, 0x22, 0x11] =
        some (kVersion .session)) ∧
    (readVersion lp64 .session
        [1, 0, 0, 0, 0, 0, 0, 0, 0x88, 0x77, 0x66, 0x55, 0x44, 0x33, 0x22, 0x11] =
        some (kVersion .session) →
      consume lp64 .session
          [1, 0, 0, 0, 0, 0, 0, 0, 0x88, 0x77, 0x66, 0x55, 0x44, 0x33, 0x22, 0x11] =
        readHandle lp64 .session
          [1, 0, 0, 0, 0, 0, 0, 0, 0x88, 0x77, 0x66, 0x55, 0x44, 0x33, 0x22, 0x11] ∧
      (readHandle lp64 .session
        [1, 0, 0, 0, 0, 0, 0, 0, 0x88, 0x77, 0x66, 0x55, 0x44, 0x33, 0x22, 0x11]).isSome) ∧
    (readVersion lp64 .session
        [1, 0, 0, 0, 0, 0, 0, 0, 0x88, 0x77, 0x66, 0x55, 0x44, 0x33, 0x22, 0x11] ≠
        some (kVersion .session) →
      consume lp64 .session
        [1, 0, 0, 0, 0, 0, 0, 0, 0x88, 0x77, 0x66, 0x55, 0x44, 0x33, 0x22, 0x11] = none)) :=
  ⟨by decide, by decide, by decide,
    C6_version_guard lp64 .session
      [1, 0, 0, 0, 0, 0, 0, 0, 0x88, 0x77, 0x66, 0x55, 0x44, 0x33, 0x22, 0x11] (by decide)⟩

/-- C7 on arm64 (`p = 8`): the handle of a reference-point descriptor is at
offset 8 and the struct is 16 bytes. -/
theorem C7_handle_offset_witness :
    lp64.Valid ∧ lp64.intSize = 4 ∧ lp64.ptrSize = 8 ∧ lp64.ptrAlign = 8 ∧
    (structOf .referencePoint).offsetOf lp64 "referencePointPtr" = some 8 ∧
    (structOf .referencePoint).size lp64 = 2 * 8 :=
  have h := C7_handle_offset lp64 8 .referencePoint (by decide) rfl rfl rfl (Or.inr rfl)
  ⟨by decide, rfl, rfl, rfl, h.2.2.2.1, h.2.2.2.2.2.1⟩

/-- C3 on arm64 and on armv7, the two targets of the header: the session
struct is `version`, signed and 32 bits wide, then `sessionPtr`, 64 bits wide
on arm64 and 32 on armv7. -/
theorem C3_two_fields_witness :
    lp64.intSize = 4 ∧ ilp32.intSize = 4 ∧
    (structOf .session).fields = [⟨"version", .int⟩, ⟨"sessionPtr", .voidPtr⟩] ∧
    (structOf .session).fields.length = 2 ∧
    (structOf .session).fields.map (fun f => (f.name, f.type.signed, f.type.bits lp64)) =
      [("version", true, 32), ("sessionPtr", false, 64)] ∧
    (structOf .session).fields.map (fun f => (f.name, f.type.signed, f.type.bits ilp32)) =
      [("version", true, 32), ("sessionPtr", false, 32)] :=
  have h := C3_two_fields lp64 .session rfl
  have h2 := C3_two_fields ilp32 .session rfl
  ⟨rfl, rfl, h.1, h.2.1, h.2.2.1, h2.2.2.1⟩

end UnityXRNativePtrs
